import Mathlib

/-!
Shallow embedding of the binance_mcp symbol-resolution, market-data and
activity-log subsystem (files binance_mcp/binance_mcp.py and
binance_mcp/binance_mcp_sse.py), together with theorems checking the
specification claims about it.

Conventions of the embedding:
* Python strings are `String`, Python ints are `Int` (or `Nat` for HTTP
  status codes), Python dicts are association lists built by insertion
  with overwrite (`dict_insert`), looked up with `List.lookup`.
* The upstream HTTP response is a `Response` value: status code, the
  parsed JSON object (an association list of string fields) and the raw
  body text.  Each tool is a pure function of its arguments and the
  response; its `ToolOutcome` records how many outbound requests were
  issued, the returned value or raised exception, and the log messages
  emitted (via `log_activity` in the sse variant, via an append to the
  log file in the stdio variant — both write the same message text,
  prefixed by a wall-clock timestamp that we pass in explicitly).
* `raise Exception(msg)` is `Except.error (.exn msg)`; an out-of-range
  dictionary subscript `data[k]` is `Except.error (.keyError k)`.
-/

/-- In-memory symbol table of binance_mcp_sse.py (lines 15-40), a dict
literal with pairwise distinct keys, embedded as its association list in
source order. -/
def SYMBOL_MAPPINGS : List (String × String) :=
  [("btc", "BTCUSDT"),
   ("bitcoin", "BTCUSDT"),
   ("eth", "ETHUSDT"),
   ("ethereum", "ETHUSDT"),
   ("sol", "SOLUSDT"),
   ("solana", "SOLUSDT"),
   ("doge", "DOGEUSDT"),
   ("shiba", "SHIBUSDT"),
   ("xrp", "XRPUSDT"),
   ("ada", "ADAUSDT"),
   ("dot", "DOTUSDT"),
   ("link", "LINKUSDT"),
   ("ltc", "LTCUSDT"),
   ("xlm", "XLMUSDT"),
   ("eos", "EOSUSDT"),
   ("bnb", "BNBUSDT"),
   ("matic", "MATICUSDT"),
   ("avax", "AVAXUSDT"),
   ("algo", "ALGOUSDT"),
   ("ftt", "FTTUSDT"),
   ("mana", "MANAUSDT"),
   ("uni", "UNIUSDT"),
   ("xmr", "XMRUSDT"),
   ("xem", "XEMUSDT")]

/-- Default symbol table written to symbol_map.csv by _initialize_files in
binance_mcp.py (lines 29-54), in source order. -/
def init_symbol_mappings : List (String × String) := SYMBOL_MAPPINGS

/-- CSV serialization performed by _initialize_files (binance_mcp.py lines
56-59): a header line followed by one name,symbol line per row. -/
def write_symbol_map_csv (rows : List (String × String)) : String :=
  rows.foldl (fun acc r => acc ++ r.1 ++ "," ++ r.2 ++ "\n") "crypto_name,symbol\n"

/-- Split a character list at every occurrence of the separator. -/
def splitOnChar (sep : Char) : List Char → List (List Char)
  | [] => [[]]
  | c :: cs =>
    let r := splitOnChar sep cs
    if c = sep then [] :: r
    else
      match r with
      | [] => [[c]]
      | g :: gs => (c :: g) :: gs

/-- Lines of a text file as the csv module sees them, with empty lines
skipped (csv.DictReader skips rows produced by blank lines). -/
def csv_lines (contents : String) : List String :=
  ((splitOnChar '\n' contents.data).map (fun l => String.mk l)).filter
    (fun l => l ≠ "")

/-- Embedding of csv.DictReader as used by load_symbol_mappings: the first
line names the columns; each further line is split on commas and paired
with the column names; the crypto_name and symbol fields are extracted. -/
def parse_symbol_map (contents : String) : List (String × String) :=
  match csv_lines contents with
  | [] => []
  | header :: rows =>
    let cols := (splitOnChar ',' header.data).map (fun l => String.mk l)
    rows.filterMap (fun line =>
      let fields := (splitOnChar ',' line.data).map (fun l => String.mk l)
      let record := cols.zip fields
      match record.lookup "crypto_name", record.lookup "symbol" with
      | some k, some v => some (k, v)
      | _, _ => none)

/-- Python dict insertion: an existing key keeps its position and gets the
new value, a new key is appended at the end. -/
def dict_insert (d : List (String × String)) (k v : String) :
    List (String × String) :=
  if d.any (fun p => p.1 = k) then
    d.map (fun p => if p.1 = k then (k, v) else p)
  else d ++ [(k, v)]

/-- Build a Python dict from a sequence of key-value assignments. -/
def dict_of_pairs (l : List (String × String)) : List (String × String) :=
  l.foldl (fun d p => dict_insert d p.1 p.2) []

/-- Outcome of the attempt of load_symbol_mappings to read
symbol_map.csv.  `absent` is the file-does-not-exist branch; `ok` is a
successful read of the whole file; `failed rows e` is an exception `e`
raised after the reader already yielded `rows` (in particular an open
failure is `failed [] e`), at which point the rows read so far have
already been inserted into the cache dict. -/
inductive ReadOutcome where
  | absent : ReadOutcome
  | ok : String → ReadOutcome
  | failed : List (String × String) → String → ReadOutcome

/-- Result of one call to load_symbol_mappings: the mapping returned, the
value of the module-level _symbol_cache afterwards, the lines appended to
the log file (with `ts` standing for str(datetime.datetime.now())), and
whether this call actually touched the CSV file. -/
structure LoadResult where
  cache : List (String × String)
  cacheAfter : Option (List (String × String))
  logs : List String
  didRead : Bool

/-- Embedding of load_symbol_mappings (binance_mcp.py lines 66-87).
`prev` is the _symbol_cache global before the call; the rows of the CSV
are inserted with lower-cased keys; a read failure is logged and the
partially built dict is kept and returned. -/
def load_symbol_mappings (prev : Option (List (String × String)))
    (ts : String) (read : ReadOutcome) : LoadResult :=
  match prev with
  | some c => ⟨c, some c, [], false⟩
  | none =>
    match read with
    | .absent => ⟨[], some [], [], false⟩
    | .ok contents =>
      let cache := dict_of_pairs
        ((parse_symbol_map contents).map (fun r => (r.1.toLower, r.2)))
      ⟨cache, some cache, [], true⟩
    | .failed rows e =>
      let cache := dict_of_pairs (rows.map (fun r => (r.1.toLower, r.2)))
      ⟨cache, some cache,
       [ts ++ ": Error reading symbol_map.csv: " ++ e], true⟩

/-- Embedding of get_symbol_from_input of binance_mcp.py (lines 90-99),
parameterized by the mapping returned by load_symbol_mappings: if the
lower-cased name is a key of the mapping return its value, else return
the upper-cased name. -/
def get_symbol_from_input_stdio (cache : List (String × String))
    (name : String) : String :=
  match cache.lookup name.toLower with
  | some v => v
  | none => name.toUpper

/-- Embedding of get_symbol_from_input of binance_mcp_sse.py (lines
54-56): SYMBOL_MAPPINGS.get(name.lower(), name.upper()). -/
def get_symbol_from_input (name : String) : String :=
  (SYMBOL_MAPPINGS.lookup name.toLower).getD name.toUpper

/-- Capacity of the in-memory activity log deque (binance_mcp_sse.py line
11, deque(maxlen=1000)). -/
def DEQUE_MAXLEN : Nat := 1000

/-- Appending to a deque with maxlen: the new element goes to the tail
and, if the bound is exceeded, elements are discarded from the head. -/
def deque_append (d : List String) (e : String) : List String :=
  let l := d ++ [e]
  if l.length > DEQUE_MAXLEN then l.drop (l.length - DEQUE_MAXLEN) else l

/-- Embedding of log_activity (binance_mcp_sse.py lines 45-51): the entry
appended to _activity_logs is the isoformat timestamp, a colon-space, and
the message. -/
def log_activity (logs : List String) (ts message : String) : List String :=
  deque_append logs (ts ++ ": " ++ message)

/-- Entries selected by get_recent_logs (binance_mcp_sse.py lines 74-79):
the limit is clamped to [1, 100] and the last `limit` entries are taken
(Python list slicing with a negative start index). -/
def get_recent_logs_entries (logs : List String) (limit : Int) :
    List String :=
  let lim := max 1 (min limit 100)
  logs.drop (logs.length - lim.toNat)

/-- Embedding of get_recent_logs: the selected entries joined by newlines. -/
def get_recent_logs (logs : List String) (limit : Int) : String :=
  String.intercalate "\n" (get_recent_logs_entries logs limit)

/-- Exceptions surfacing from a tool call: a raised Exception with its
message, or a KeyError from subscripting the parsed JSON object. -/
inductive PyError where
  | exn : String → PyError
  | keyError : String → PyError

/-- Model of the requests.get response: HTTP status code, the parsed JSON
object (response.json(), with string fields), and the raw body text
(response.text). -/
structure Response where
  status_code : Nat
  body : List (String × String)
  text : String

/-- Observable outcome of one tool call: how many outbound requests.get
calls were issued, the value returned or exception raised, and the log
messages written (in order). -/
structure ToolOutcome (α : Type) where
  requests : Nat
  result : Except PyError α
  writes : List String

/-- Embedding of get_price (binance_mcp_sse.py lines 150-174 and, with
the file-backed log, binance_mcp.py lines 182-210): resolve the symbol,
issue one request; on a non-200 status log an error message and raise; on
200 read the price field of the JSON body (KeyError if absent, before any
logging), log a success message and return the formatted sentence. -/
def get_price (symbol : String) (resp : Response) : ToolOutcome String :=
  let symbol := get_symbol_from_input symbol
  if resp.status_code ≠ 200 then
    let msg := "Error getting price for " ++ symbol ++ ": " ++
      toString resp.status_code ++ " " ++ resp.text
    ⟨1, .error (.exn msg), [msg]⟩
  else
    match resp.body.lookup "price" with
    | none => ⟨1, .error (.keyError "price"), []⟩
    | some price =>
      ⟨1, .ok ("The current price of " ++ symbol ++ " is " ++ price),
       ["Successfully got the current price for " ++ symbol ++ ": " ++ price]⟩

/-- Embedding of get_price_24hr_change (binance_mcp_sse.py lines 177-203
and binance_mcp.py lines 213-241): on 200 the priceChange and
priceChangePercent fields are read (KeyError if absent, before any
logging), a success message is logged and the full parsed payload is
returned. -/
def get_price_24hr_change (symbol : String) (resp : Response) :
    ToolOutcome (List (String × String)) :=
  let symbol := get_symbol_from_input symbol
  if resp.status_code ≠ 200 then
    let msg := "Error getting price change for " ++ symbol ++ ": " ++
      toString resp.status_code ++ " " ++ resp.text
    ⟨1, .error (.exn msg), [msg]⟩
  else
    match resp.body.lookup "priceChange" with
    | none => ⟨1, .error (.keyError "priceChange"), []⟩
    | some pc =>
      match resp.body.lookup "priceChangePercent" with
      | none => ⟨1, .error (.keyError "priceChangePercent"), []⟩
      | some pcp =>
        ⟨1, .ok resp.body,
         ["Successfully got the price change for " ++ symbol ++ ": " ++
          pc ++ " (" ++ pcp ++ "%)"]⟩

/-- Embedding of get_rolling_windows_price (binance_mcp_sse.py lines
206-235 and binance_mcp.py lines 244-275): the window string is used in
the request URL and in the log messages but is never validated; exactly
one request is always issued. -/
def get_rolling_windows_price (symbol window : String) (resp : Response) :
    ToolOutcome (List (String × String)) :=
  let symbol := get_symbol_from_input symbol
  if resp.status_code ≠ 200 then
    let msg := "Error getting the price change for " ++ symbol ++
      " in the window " ++ window ++ ": " ++
      toString resp.status_code ++ " " ++ resp.text
    ⟨1, .error (.exn msg), [msg]⟩
  else
    match resp.body.lookup "priceChange" with
    | none => ⟨1, .error (.keyError "priceChange"), []⟩
    | some pc =>
      match resp.body.lookup "priceChangePercent" with
      | none => ⟨1, .error (.keyError "priceChangePercent"), []⟩
      | some pcp =>
        ⟨1, .ok resp.body,
         ["Successfully got the price change for " ++ symbol ++
          " in the window " ++ window ++ ": " ++ pc ++ " (" ++ pcp ++ "%)"]⟩

/-- Modelled from the spec (section 3): a window string is valid when it
matches the pattern of one or more digits followed by a unit, with minutes
in [1, 59], hours in [1, 23] and days in [1, 7].  This validity check is
absent from both source variants; it is stated here only to compare the
code against the spec. -/
def validWindow_spec (w : String) : Bool :=
  match w.data.getLast? with
  | none => false
  | some u =>
    let digits := w.data.dropLast
    decide (digits ≠ []) && digits.all (fun c => c.isDigit) &&
    (let n : Nat := digits.foldl (fun acc c => acc * 10 + (c.toNat - 48)) 0
     if u = 'm' then decide (1 ≤ n) && decide (n ≤ 59)
     else if u = 'h' then decide (1 ≤ n) && decide (n ≤ 23)
     else if u = 'd' then decide (1 ≤ n) && decide (n ≤ 7)
     else false)

/-- Spec-side reading of log levels: the source encodes the level in the
message text, an Error entry being one whose message starts with the word
Error. -/
def isErrorMessage (m : String) : Bool :=
  "Error".data.isPrefixOf m.data

/-! ### Helper lemmas on character and string case mapping -/

theorem string_toLower_data (s : String) :
    s.toLower = ⟨s.data.map Char.toLower⟩ :=
  String.map_eq Char.toLower s

theorem string_toUpper_data (s : String) :
    s.toUpper = ⟨s.data.map Char.toUpper⟩ :=
  String.map_eq Char.toUpper s

theorem char_toNat_ofNat_of_lt {n : Nat} (h : n < 55296) :
    (Char.ofNat n).toNat = n := by
  have hv : n.isValidChar := Or.inl h
  rw [Char.ofNat, dif_pos hv]
  rfl

theorem char_eq_of_toNat_eq {c d : Char} (h : c.toNat = d.toNat) : c = d :=
  Char.ext (UInt32.toNat.inj h)

theorem char_toLower_toNat (c : Char) :
    (Char.toLower c).toNat =
      if 65 ≤ c.toNat ∧ c.toNat ≤ 90 then c.toNat + 32 else c.toNat := by
  unfold Char.toLower
  split
  · next h => rw [if_pos h]; exact char_toNat_ofNat_of_lt (by omega)
  · next h => rw [if_neg h]

theorem char_toUpper_toNat (c : Char) :
    (Char.toUpper c).toNat =
      if 97 ≤ c.toNat ∧ c.toNat ≤ 122 then c.toNat - 32 else c.toNat := by
  unfold Char.toUpper
  split
  · next h => rw [if_pos h]; exact char_toNat_ofNat_of_lt (by omega)
  · next h => rw [if_neg h]

theorem char_toUpper_congr {c d : Char} (h : c.toLower = d.toLower) :
    c.toUpper = d.toUpper := by
  have h' := congrArg Char.toNat h
  rw [char_toLower_toNat, char_toLower_toNat] at h'
  apply char_eq_of_toNat_eq
  rw [char_toUpper_toNat, char_toUpper_toNat]
  split_ifs at h' ⊢ <;> omega

theorem char_toLower_toUpper (c : Char) : c.toUpper.toLower = c.toLower := by
  apply char_eq_of_toNat_eq
  rw [char_toLower_toNat, char_toUpper_toNat, char_toLower_toNat]
  split_ifs <;> omega

theorem char_toUpper_toUpper (c : Char) : c.toUpper.toUpper = c.toUpper := by
  apply char_eq_of_toNat_eq
  rw [char_toUpper_toNat, char_toUpper_toNat]
  split_ifs <;> omega

theorem list_map_toUpper_congr : ∀ {l m : List Char},
    l.map Char.toLower = m.map Char.toLower →
    l.map Char.toUpper = m.map Char.toUpper
  | [], [], _ => rfl
  | a :: l, b :: m, h => by
    simp only [List.map_cons, List.cons.injEq] at h ⊢
    exact ⟨char_toUpper_congr h.1, list_map_toUpper_congr h.2⟩
  | [], _ :: _, h => by simp at h
  | _ :: _, [], h => by simp at h

theorem string_toUpper_congr {s t : String} (h : s.toLower = t.toLower) :
    s.toUpper = t.toUpper := by
  rw [string_toLower_data, string_toLower_data] at h
  rw [string_toUpper_data, string_toUpper_data]
  exact congrArg String.mk (list_map_toUpper_congr (congrArg String.data h))

theorem string_toLower_toUpper (s : String) : s.toUpper.toLower = s.toLower := by
  rw [string_toUpper_data, string_toLower_data, string_toLower_data]
  apply congrArg String.mk
  show (s.data.map Char.toUpper).map Char.toLower = s.data.map Char.toLower
  rw [List.map_map]
  have hf : Char.toLower ∘ Char.toUpper = Char.toLower :=
    funext char_toLower_toUpper
  rw [hf]

theorem string_toUpper_toUpper (s : String) : s.toUpper.toUpper = s.toUpper := by
  rw [string_toUpper_data, string_toUpper_data]
  apply congrArg String.mk
  show (s.data.map Char.toUpper).map Char.toUpper = s.data.map Char.toUpper
  rw [List.map_map]
  have hf : Char.toUpper ∘ Char.toUpper = Char.toUpper :=
    funext char_toUpper_toUpper
  rw [hf]

set_option maxRecDepth 10000 in
theorem symbol_values_fixed :
    ∀ p ∈ SYMBOL_MAPPINGS,
      SYMBOL_MAPPINGS.lookup p.2.toLower = none ∧ p.2.toUpper = p.2 := by
  simp only [string_toLower_data, string_toUpper_data]
  decide

/-! ### Helper lemmas about the embedded operations -/

theorem get_symbol_from_input_btcusdt :
    get_symbol_from_input "BTCUSDT" = "BTCUSDT" := by
  simp only [get_symbol_from_input, string_toLower_data, string_toUpper_data]
  decide

theorem isErrorMessage_append (rest : String) :
    isErrorMessage ("Error" ++ rest) = true := by
  have h := List.prefix_append "Error".data rest.data
  simp only [isErrorMessage, String.data_append]
  exact List.isPrefixOf_iff_prefix.mpr h

theorem deque_append_length (d : List String) (e : String) :
    (deque_append d e).length = min (d.length + 1) 1000 := by
  simp only [deque_append, DEQUE_MAXLEN]
  split
  · next h =>
    simp only [List.length_drop, List.length_append, List.length_cons,
      List.length_nil] at h ⊢
    omega
  · next h =>
    simp only [List.length_append, List.length_cons, List.length_nil] at h ⊢
    omega

theorem foldl_deque_length_le (es : List String) :
    ∀ init : List String, init.length ≤ 1000 →
      (es.foldl deque_append init).length ≤ 1000 := by
  induction es with
  | nil => intro init h; simpa using h
  | cons e es ih =>
    intro init h
    simp only [List.foldl_cons]
    exact ih _ (by rw [deque_append_length]; omega)

theorem foldl_deque_append_small (es : List String) :
    ∀ init : List String, init.length + es.length ≤ 1000 →
      es.foldl deque_append init = init ++ es := by
  induction es with
  | nil => intro init _; simp
  | cons e es ih =>
    intro init h
    simp only [List.foldl_cons]
    have hd : deque_append init e = init ++ [e] := by
      simp only [deque_append, DEQUE_MAXLEN]
      rw [if_neg]
      simp only [List.length_append, List.length_cons, List.length_nil,
        gt_iff_lt, Nat.not_lt]
      simp at h
      omega
    rw [hd, ih (init ++ [e]) (by simp at h ⊢; omega)]
    simp

set_option maxRecDepth 100000 in
theorem loaded_cache_eq_static (ts : String) :
    (load_symbol_mappings none ts
      (.ok (write_symbol_map_csv init_symbol_mappings))).cache =
      SYMBOL_MAPPINGS := by
  simp only [load_symbol_mappings, string_toLower_data]
  decide

/-! ### Claim theorems -/

/-- Claim C1 (code bug): the claimed local validation of the window string
is absent from the code.  For the invalid window 99d (the spec pattern
rejects it) and any non-success upstream response,
get_rolling_windows_price still issues its one outbound request and
writes an upstream-error log entry, instead of failing locally with
InvalidArgument before any request and writing nothing. -/
theorem c1_rolling_window_not_validated (resp : Response)
    (h : resp.status_code ≠ 200) :
    validWindow_spec "99d" = false ∧
    (get_rolling_windows_price "BTCUSDT" "99d" resp).requests = 1 ∧
    (get_rolling_windows_price "BTCUSDT" "99d" resp).writes =
      ["Error getting the price change for BTCUSDT in the window 99d: " ++
        toString resp.status_code ++ " " ++ resp.text] := by
  refine ⟨by decide, ?_, ?_⟩
  · simp [get_rolling_windows_price, h]
  · simp [get_rolling_windows_price, h, get_symbol_from_input_btcusdt]

/-- Witness for C1 at the concrete failing input: status 400 with body
text Invalid window. -/
theorem c1_rolling_window_not_validated_witness :
    (Response.mk 400 [] "Invalid window").status_code ≠ 200 ∧
    (validWindow_spec "99d" = false ∧
     (get_rolling_windows_price "BTCUSDT" "99d"
        (Response.mk 400 [] "Invalid window")).requests = 1 ∧
     (get_rolling_windows_price "BTCUSDT" "99d"
        (Response.mk 400 [] "Invalid window")).writes =
       ["Error getting the price change for BTCUSDT in the window 99d: " ++
         toString (400 : Nat) ++ " " ++ "Invalid window"]) :=
  ⟨by decide, c1_rolling_window_not_validated
    (Response.mk 400 [] "Invalid window") (by decide)⟩

set_option maxRecDepth 10000 in
/-- Claim C2: symbol resolution is total (the embedding returns a string
for every input by construction); every mnemonic of the table resolves to
its mapped symbol, and every input whose lower-casing is not a key of the
table resolves to the upper-cased input unchanged. -/
theorem c2_symbol_resolution_total (name : String)
    (h : SYMBOL_MAPPINGS.lookup name.toLower = none) :
    (∀ p ∈ SYMBOL_MAPPINGS, get_symbol_from_input p.1 = p.2) ∧
    get_symbol_from_input name = name.toUpper := by
  constructor
  · simp only [get_symbol_from_input, string_toLower_data, string_toUpper_data]
    decide
  · simp only [get_symbol_from_input, h, Option.getD_none]

/-- Witness for C2 at the unmapped input zebra. -/
theorem c2_symbol_resolution_total_witness :
    SYMBOL_MAPPINGS.lookup "zebra".toLower = none ∧
    get_symbol_from_input "zebra" = "zebra".toUpper := by
  have hnone : SYMBOL_MAPPINGS.lookup "zebra".toLower = none := by
    simp only [string_toLower_data]
    decide
  exact ⟨hnone, (c2_symbol_resolution_total "zebra" hnone).2⟩

/-- Claim C3: for every integer limit and every log content,
get_recent_logs joins the selected entries, at most
min(max 1 (min limit 100), available) entries are selected, and the
selected entries are a suffix of the log (the most recent ones, in
insertion order). -/
theorem c3_get_recent_logs_clamp (logs : List String) (limit : Int) :
    get_recent_logs logs limit =
      String.intercalate "\n" (get_recent_logs_entries logs limit) ∧
    (get_recent_logs_entries logs limit).length ≤
      min (max 1 (min limit 100)).toNat logs.length ∧
    logs.take (logs.length - (max 1 (min limit 100)).toNat) ++
      get_recent_logs_entries logs limit = logs := by
  refine ⟨rfl, ?_, ?_⟩
  · simp only [get_recent_logs_entries, List.length_drop]
    omega
  · simp only [get_recent_logs_entries]
    exact List.take_append_drop _ _

/-- Claim C4: the ring-buffer log never exceeds 1000 entries under any
sequence of appends from the empty deque, and after 1001 appends the
content is exactly the last 1000 appended entries in arrival order; in
particular the first entry is gone whenever it differs from all later
ones. -/
theorem c4_ring_buffer_bound (es : List String) (h : es.length = 1001) :
    (∀ fs : List String,
      (fs.foldl deque_append ([] : List String)).length ≤ 1000) ∧
    es.foldl deque_append [] = es.tail ∧
    (∀ a, es.head? = some a → a ∉ es.tail → a ∉ es.foldl deque_append []) := by
  have hmain : es.foldl deque_append [] = es.tail := by
    obtain ⟨a, t, rfl⟩ : ∃ a t, es = a :: t := by
      cases es with
      | nil => simp at h
      | cons a t => exact ⟨a, t, rfl⟩
    have ht : t.length = 1000 := by simpa using h
    have htne : t ≠ [] := by
      intro he; rw [he] at ht; simp at ht
    obtain ⟨l, x, hx⟩ : ∃ l x, t = l ++ [x] :=
      ⟨t.dropLast, t.getLast htne, (List.dropLast_append_getLast htne).symm⟩
    subst hx
    have hl : l.length = 999 := by
      simp only [List.length_append, List.length_cons, List.length_nil] at ht
      omega
    have h0 : deque_append [] a = [a] := by
      simp [deque_append, DEQUE_MAXLEN]
    rw [List.foldl_cons, h0, List.foldl_append, List.foldl_cons, List.foldl_nil,
      foldl_deque_append_small l [a] (by simp [hl])]
    have hlen : ((a :: l) ++ [x]).length > 1000 := by simp [hl]
    show deque_append (a :: l) x = _
    simp only [deque_append, DEQUE_MAXLEN]
    rw [if_pos (by simpa using hlen)]
    have hone : (a :: l ++ [x]).length - 1000 = 1 := by simp [hl]
    rw [hone, List.drop_one]
    rfl
  refine ⟨fun fs => foldl_deque_length_le fs [] (by simp), hmain, ?_⟩
  intro a ha hnot
  rw [hmain]
  exact hnot

/-- Witness for C4: 1001 pairwise distinct entries. -/
theorem c4_ring_buffer_bound_witness :
    ((List.range 1001).map toString).length = 1001 ∧
    ((List.range 1001).map toString).foldl deque_append [] =
      ((List.range 1001).map toString).tail :=
  ⟨by simp,
    (c4_ring_buffer_bound ((List.range 1001).map toString) (by simp)).2.1⟩

/-- Claim C5: whenever a market-data call succeeds or fails with an
upstream error (a non-200 status, or a 200 status whose body carries the
fields the operation extracts), exactly one log message is written —
never zero and never more than one.  A 200 response missing an extracted
field raises a KeyError, which is neither a success nor an upstream
error, so it is outside the scope the claim states. -/
theorem c5_exactly_one_log_entry (symbol window : String)
    (r1 r2 r3 : Response)
    (h1 : r1.status_code ≠ 200 ∨ (r1.body.lookup "price").isSome)
    (h2 : r2.status_code ≠ 200 ∨
      ((r2.body.lookup "priceChange").isSome ∧
       (r2.body.lookup "priceChangePercent").isSome))
    (h3 : r3.status_code ≠ 200 ∨
      ((r3.body.lookup "priceChange").isSome ∧
       (r3.body.lookup "priceChangePercent").isSome)) :
    (get_price symbol r1).writes.length = 1 ∧
    (get_price_24hr_change symbol r2).writes.length = 1 ∧
    (get_rolling_windows_price symbol window r3).writes.length = 1 := by
  refine ⟨?_, ?_, ?_⟩
  · by_cases hs : r1.status_code = 200
    · rcases h1 with h | h
      · exact absurd hs h
      · obtain ⟨p, hp⟩ := Option.isSome_iff_exists.mp h
        simp [get_price, hs, hp]
    · simp [get_price, hs]
  · by_cases hs : r2.status_code = 200
    · rcases h2 with h | h
      · exact absurd hs h
      · obtain ⟨pc, hpc⟩ := Option.isSome_iff_exists.mp h.1
        obtain ⟨pcp, hpcp⟩ := Option.isSome_iff_exists.mp h.2
        simp [get_price_24hr_change, hs, hpc, hpcp]
    · simp [get_price_24hr_change, hs]
  · by_cases hs : r3.status_code = 200
    · rcases h3 with h | h
      · exact absurd hs h
      · obtain ⟨pc, hpc⟩ := Option.isSome_iff_exists.mp h.1
        obtain ⟨pcp, hpcp⟩ := Option.isSome_iff_exists.mp h.2
        simp [get_rolling_windows_price, hs, hpc, hpcp]
    · simp [get_rolling_windows_price, hs]

/-- Witness for C5 at a concrete upstream failure shared by the three
operations. -/
theorem c5_exactly_one_log_entry_witness :
    ((Response.mk 404 [] "notfound").status_code ≠ 200 ∨
      (((Response.mk 404 [] "notfound").body.lookup "price").isSome = true)) ∧
    (get_price "btc" (Response.mk 404 [] "notfound")).writes.length = 1 ∧
    (get_price_24hr_change "btc"
      (Response.mk 404 [] "notfound")).writes.length = 1 ∧
    (get_rolling_windows_price "btc" "1d"
      (Response.mk 404 [] "notfound")).writes.length = 1 := by
  have h := c5_exactly_one_log_entry "btc" "1d" (Response.mk 404 [] "notfound")
    (Response.mk 404 [] "notfound") (Response.mk 404 [] "notfound")
    (Or.inl (by decide)) (Or.inl (by decide)) (Or.inl (by decide))
  exact ⟨Or.inl (by decide), h.1, h.2.1, h.2.2⟩

/-- Claim C6 counterexample: the claim speaks of non-2xx versus 2xx, but
the code succeeds only on status exactly 200.  On the 2xx status 201 with
a well-formed body, get_price raises and logs an error rather than
returning the price. -/
theorem c6_counterexample_status_201 :
    (get_price "BTCUSDT"
      (Response.mk 201 [("price", "50000")] "created")).result =
      .error (.exn ("Error getting price for BTCUSDT: 201 created")) ∧
    (get_price "BTCUSDT"
      (Response.mk 201 [("price", "50000")] "created")).writes =
      ["Error getting price for BTCUSDT: 201 created"] := by
  constructor
  · simp only [get_price, get_symbol_from_input_btcusdt]
    norm_num
    rfl
  · simp only [get_price, get_symbol_from_input_btcusdt]
    norm_num
    rfl

/-- Claim C6 (amended: with success meaning status exactly 200, not any
2xx): on a non-200 status get_price raises an exception carrying the
status code and the raw body and writes exactly one Error-level log
message referencing the resolved symbol; on a 200 status with a price
field it returns the formatted sentence containing the symbol and the
price, and writes one success message. -/
theorem c6_get_price_status_behavior (symbol : String) (r1 r2 : Response)
    (price : String)
    (h1 : r1.status_code ≠ 200)
    (h2 : r2.status_code = 200)
    (hp : r2.body.lookup "price" = some price) :
    (get_price symbol r1).result =
      .error (.exn ("Error getting price for " ++ get_symbol_from_input symbol ++
        ": " ++ toString r1.status_code ++ " " ++ r1.text)) ∧
    (get_price symbol r1).writes =
      ["Error getting price for " ++ get_symbol_from_input symbol ++ ": " ++
        toString r1.status_code ++ " " ++ r1.text] ∧
    isErrorMessage ("Error getting price for " ++ get_symbol_from_input symbol ++
      ": " ++ toString r1.status_code ++ " " ++ r1.text) = true ∧
    (get_price symbol r2).result =
      .ok ("The current price of " ++ get_symbol_from_input symbol ++
        " is " ++ price) ∧
    (get_price symbol r2).writes =
      ["Successfully got the current price for " ++
        get_symbol_from_input symbol ++ ": " ++ price] := by
  refine ⟨?_, ?_, rfl, ?_, ?_⟩
  · simp [get_price, h1]
  · simp [get_price, h1]
  · simp [get_price, h2, hp]
  · simp [get_price, h2, hp]

/-- Witness for C6 at a 404 failure and a 200 success. -/
theorem c6_get_price_status_behavior_witness :
    (Response.mk 404 [] "symbol not found").status_code ≠ 200 ∧
    (Response.mk 200 [("price", "97000")] "raw").status_code = 200 ∧
    (Response.mk 200 [("price", "97000")] "raw").body.lookup "price" =
      some "97000" ∧
    (get_price "BTCUSDT" (Response.mk 404 [] "symbol not found")).writes =
      ["Error getting price for " ++ get_symbol_from_input "BTCUSDT" ++ ": " ++
        toString (404 : Nat) ++ " " ++ "symbol not found"] ∧
    (get_price "BTCUSDT" (Response.mk 200 [("price", "97000")] "raw")).result =
      .ok ("The current price of " ++ get_symbol_from_input "BTCUSDT" ++
        " is " ++ "97000") :=
  have h := c6_get_price_status_behavior "BTCUSDT"
    (Response.mk 404 [] "symbol not found")
    (Response.mk 200 [("price", "97000")] "raw") "97000"
    (by decide) rfl (by decide)
  ⟨by decide, rfl, by decide, h.2.1, h.2.2.2.1⟩

/-- Claim C7 counterexample: when the CSV read fails after the btc row was
already consumed, the resolver afterwards maps btc to BTCUSDT — it does
not operate with an empty mapping, and btc does not fall back to its
upper-casing BTC. -/
theorem c7_counterexample_partial_load :
    get_symbol_from_input_stdio
      (load_symbol_mappings none "T" (.failed [("btc", "BTCUSDT")] "boom")).cache
      "btc" = "BTCUSDT" ∧
    "btc".toUpper = "BTC" ∧
    ("BTCUSDT" : String) ≠ "BTC" := by
  refine ⟨?_, ?_, by decide⟩
  · simp only [load_symbol_mappings, get_symbol_from_input_stdio,
      string_toLower_data]
    decide
  · simp only [string_toUpper_data]
    decide

/-- Claim C7 (amended: after a load failure the resolver continues with
the mappings read before the failure point, which is the empty mapping
exactly when the failure precedes the first row): the loader never raises
(it is a total function), a populated cache is returned as-is without
re-reading, a read failure is recorded as one log line, the cache after a
failure is the partially read dict, and every name missing from that dict
falls back to the upper-casing rule. -/
theorem c7_loader_degradation (m rows : List (String × String))
    (ts ts2 e name : String) (read : ReadOutcome)
    (hmiss : (dict_of_pairs (rows.map (fun r => (r.1.toLower, r.2)))).lookup
        name.toLower = none) :
    (load_symbol_mappings (some m) ts2 read).didRead = false ∧
    (load_symbol_mappings (some m) ts2 read).cache = m ∧
    (load_symbol_mappings (some m) ts2 read).logs = [] ∧
    (load_symbol_mappings none ts (.failed rows e)).logs =
      [ts ++ ": Error reading symbol_map.csv: " ++ e] ∧
    (load_symbol_mappings none ts (.failed rows e)).cache =
      dict_of_pairs (rows.map (fun r => (r.1.toLower, r.2))) ∧
    get_symbol_from_input_stdio
      (load_symbol_mappings none ts (.failed rows e)).cache name =
      name.toUpper := by
  refine ⟨rfl, rfl, rfl, rfl, rfl, ?_⟩
  simp [get_symbol_from_input_stdio, load_symbol_mappings, hmiss]

/-- Witness for C7 at an open failure (no rows read): resolution falls
back to upper-casing. -/
theorem c7_loader_degradation_witness :
    get_symbol_from_input_stdio
      (load_symbol_mappings none "T" (.failed [] "disk error")).cache
      "btc" = "btc".toUpper :=
  (c7_loader_degradation [] [] "T" "T2" "disk error" "btc" .absent
    rfl).2.2.2.2.2

set_option maxRecDepth 10000 in
/-- Claim C8: resolution is case-insensitive (any two inputs with the same
lower-casing resolve identically) and idempotent (resolving a resolved
symbol returns it unchanged). -/
theorem c8_resolve_idempotent_case_insensitive (x y : String)
    (h : x.toLower = y.toLower) :
    get_symbol_from_input x = get_symbol_from_input y ∧
    get_symbol_from_input (get_symbol_from_input x) =
      get_symbol_from_input x := by
  constructor
  · simp only [get_symbol_from_input, h]
    cases hl : SYMBOL_MAPPINGS.lookup y.toLower with
    | some v => simp
    | none => simp [string_toUpper_congr h]
  · cases hl : SYMBOL_MAPPINGS.lookup x.toLower with
    | some v =>
      have hmem : (x.toLower, v) ∈ SYMBOL_MAPPINGS := by
        obtain ⟨l₁, l₂, heq, -⟩ := List.lookup_eq_some_iff.mp hl
        rw [heq]
        exact List.mem_append_right _ (List.mem_cons_self _ _)
      have hv := symbol_values_fixed _ hmem
      have hx : get_symbol_from_input x = v := by
        simp [get_symbol_from_input, hl]
      rw [hx]
      simp only [get_symbol_from_input, hv.1, Option.getD_none, hv.2]
    | none =>
      have hx : get_symbol_from_input x = x.toUpper := by
        simp [get_symbol_from_input, hl]
      rw [hx]
      simp only [get_symbol_from_input]
      rw [string_toLower_toUpper, hl]
      simp [string_toUpper_toUpper]

/-- Witness for C8 at the case variants BTC and btc. -/
theorem c8_resolve_idempotent_case_insensitive_witness :
    "BTC".toLower = "btc".toLower ∧
    get_symbol_from_input "BTC" = get_symbol_from_input "btc" ∧
    get_symbol_from_input (get_symbol_from_input "BTC") =
      get_symbol_from_input "BTC" := by
  have h : "BTC".toLower = "btc".toLower := by
    simp only [string_toLower_data]
    decide
  exact ⟨h, (c8_resolve_idempotent_case_insensitive "BTC" "btc" h).1,
    (c8_resolve_idempotent_case_insensitive "BTC" "btc" h).2⟩

/-- Claim C9: for every input, the stdio-variant resolver over the table
lazily loaded from the default CSV written by _initialize_files agrees
with the sse-variant resolver over the static in-code table. -/
theorem c9_variants_agree (ts name : String) :
    get_symbol_from_input_stdio
      (load_symbol_mappings none ts
        (.ok (write_symbol_map_csv init_symbol_mappings))).cache name =
      get_symbol_from_input name := by
  rw [loaded_cache_eq_static]
  simp only [get_symbol_from_input_stdio, get_symbol_from_input]
  cases SYMBOL_MAPPINGS.lookup name.toLower <;> simp

/-- Claim C10: appending to the activity log is frame-preserving — under
the reachable-state bound of at most 1000 entries, log_activity appends
exactly one entry at the tail and keeps every previous entry unmodified
and in order, except that the oldest entry is evicted when the log is
full. -/
theorem c10_log_append_frame (logs : List String) (ts msg : String)
    (h : logs.length ≤ 1000) :
    log_activity logs ts msg =
      (if logs.length = 1000 then logs.tail else logs) ++
        [ts ++ ": " ++ msg] := by
  simp only [log_activity, deque_append, DEQUE_MAXLEN, List.length_append,
    List.length_cons, List.length_nil]
  by_cases hc : logs.length = 1000
  · rw [if_pos (by omega), if_pos hc]
    have h1 : logs.length + 1 - 1000 = 1 := by omega
    rw [h1, List.drop_append_of_le_length (by omega), List.drop_one]
  · rw [if_neg (by omega), if_neg hc]

/-- Witness for C10 at a one-entry log. -/
theorem c10_log_append_frame_witness :
    (["old"] : List String).length ≤ 1000 ∧
    log_activity ["old"] "T0" "hello" =
      (if (["old"] : List String).length = 1000 then
        (["old"] : List String).tail
       else ["old"]) ++ ["T0" ++ ": " ++ "hello"] :=
  ⟨by decide, c10_log_append_frame ["old"] "T0" "hello" (by decide)⟩
